import Mathlib

/-!
Shallow embedding of the packet-processing core of `dashboard.py`
(class `PacketProcessor`), together with theorems checking the
specification's claims about it.

Modelling conventions:
* A scapy packet is modelled by its optional IP / TCP / UDP layers and its
  total length (`len(packet)`).
* `datetime.now()` values and `total_seconds()` differences are opaque to the
  pipeline; they are passed in as integer parameters (`now1` for the
  `timestamp` field, `now2` for the `time_relative` computation).
* Geolocation coordinates are opaque values copied from the geocoder; no
  claim inspects their numeric value, so they are modelled as integers.
* The external geocoder call `self.geolocator.geocode(...)` is an input
  oracle: it can return a location, return `None`, or raise.
* A Python exception is modelled as its message string; an alert predicate
  is a function returning `Except String Bool` (`error` = the callable
  raised).
* Side effects are made explicit: `st.warning` calls become the `warnings`
  list of a step result, `logger.error` calls become the `logs` list.
-/

namespace Dashboard

/-- The IP layer of a captured packet: `packet[IP].src`, `packet[IP].dst`,
`packet[IP].proto`. -/
structure IPLayer where
  src : String
  dst : String
  proto : Int
deriving DecidableEq

/-- The TCP layer: `packet[TCP].sport`, `packet[TCP].dport`,
`packet[TCP].flags`. -/
structure TCPLayer where
  sport : Nat
  dport : Nat
  flags : Nat
deriving DecidableEq

/-- The UDP layer: `packet[UDP].sport`, `packet[UDP].dport`. -/
structure UDPLayer where
  sport : Nat
  dport : Nat
deriving DecidableEq

/-- A raw captured packet, reduced to the layers the processor inspects and
its total length. -/
structure Packet where
  ip : Option IPLayer
  tcp : Option TCPLayer
  udp : Option UDPLayer
  len : Nat
deriving DecidableEq

/-- The transport-specific keys that `process_packet` may add to the
`packet_info` dict: `src_port`, `dst_port` and (for TCP only) `tcp_flags`. -/
inductive Transport where
  | tcp (src_port dst_port tcp_flags : Nat)
  | udp (src_port dst_port : Nat)
deriving DecidableEq

/-- The `packet_info` dict built by `process_packet`.  The optional
transport keys are gathered in `transport`; the optional `latitude` /
`longitude` keys are gathered in `geo`. -/
structure PacketInfo where
  timestamp : Int
  source : String
  destination : String
  protocol : String
  size : Nat
  time_relative : Int
  transport : Option Transport
  geo : Option (Int × Int)
deriving DecidableEq

/-- Outcome of the external call `self.geolocator.geocode(src)`. -/
inductive GeoResult where
  | found (latitude longitude : Int)
  | notFound
  | raised (msg : String)
deriving DecidableEq

/-- An alert rule as stored by `add_alert`: a `(condition, message)` pair.
The condition is a Python callable, so it may raise (`Except.error`). -/
abbrev AlertRule : Type := (PacketInfo → Except String Bool) × String

/-- The mutable state of a `PacketProcessor` instance: `packet_data`,
`packet_count`, `start_time` and the `alerts` list (from `__init__`). -/
structure ProcessorState where
  packet_data : List PacketInfo
  packet_count : Nat
  start_time : Int
  alerts : List AlertRule

/-- The `__init__` state of a `PacketProcessor` created at `start_time`. -/
def init_state (start_time : Int) : ProcessorState :=
  { packet_data := [], packet_count := 0, start_time := start_time, alerts := [] }

/-- The `protocol_map` dict from `__init__`. -/
def protocol_map : List (Int × String) :=
  [(1, "ICMP"), (6, "TCP"), (17, "UDP")]

/-- `get_protocol_name`: `self.protocol_map.get(protocol_num, f'OTHER(...)')`. -/
def get_protocol_name (protocol_num : Int) : String :=
  (protocol_map.lookup protocol_num).getD ("OTHER(" ++ toString protocol_num ++ ")")

/-- `add_alert(condition, message)`: appends a rule to `self.alerts`. -/
def add_alert (s : ProcessorState) (condition : PacketInfo → Except String Bool)
    (message : String) : ProcessorState :=
  { s with alerts := s.alerts ++ [(condition, message)] }

/-- `check_alerts(packet_info)`: runs each `(condition, message)` in order,
emitting `st.warning` for each condition that returns true.  There is no
`try` around an individual condition, so the first condition that raises
aborts the loop; the result is the warnings emitted before that point plus
the raised exception, if any. -/
def check_alerts (alerts : List AlertRule) (packet_info : PacketInfo) :
    List String × Option String :=
  match alerts with
  | [] => ([], none)
  | (condition, message) :: rest =>
    match condition packet_info with
    | Except.error e => ([], some e)
    | Except.ok b =>
      let r := check_alerts rest packet_info
      (if b then ("Alert: " ++ message) :: r.1 else r.1, r.2)

/-- Lines 60-82 of `process_packet`: build the `packet_info` dict for a
packet whose IP layer is present, including the TCP / UDP `elif` chain.  No
geolocation keys are present yet. -/
def build_packet_info (s : ProcessorState) (packet : Packet) (ip : IPLayer)
    (now1 now2 : Int) : PacketInfo :=
  { timestamp := now1
    source := ip.src
    destination := ip.dst
    protocol := get_protocol_name ip.proto
    size := packet.len
    time_relative := now2 - s.start_time
    transport :=
      match packet.tcp with
      | some t => some (Transport.tcp t.sport t.dport t.flags)
      | none =>
        match packet.udp with
        | some u => some (Transport.udp u.sport u.dport)
        | none => none
    geo := none }

/-- Lines 84-91 of `process_packet`: the geolocation block.  On success the
`latitude` / `longitude` keys are added; `None` results and raised
exceptions leave `packet_info` unchanged, and a raise is logged via
`logger.error`. -/
def enrich (geocode : String → GeoResult) (packet_info : PacketInfo) :
    PacketInfo × List String :=
  match geocode packet_info.source with
  | GeoResult.found lat lon => ({ packet_info with geo := some (lat, lon) }, [])
  | GeoResult.notFound => (packet_info, [])
  | GeoResult.raised e => (packet_info, ["Error in geolocation: " ++ e])

/-- Lines 96-101 of `process_packet`: `self.packet_data.append(packet_info)`
followed by `self.packet_data.pop(0)` when the length exceeds 10000. -/
def store_append {α : Type} (packet_data : List α) (x : α) : List α :=
  let d := packet_data ++ [x]
  if d.length > 10000 then d.drop 1 else d

/-- The result of one `process_packet` call: the new processor state, the
`st.warning` messages emitted, and the `logger.error` messages emitted. -/
structure StepResult where
  state : ProcessorState
  warnings : List String
  logs : List String

/-- The body of `process_packet` inside the outer `try` (lines 58-101).
An uncaught exception is returned as `Except.error` carrying the exception
message together with the warnings and logs already emitted before the
raise.  No shared state is mutated before the append / count increment at
lines 96-97, and nothing after them can raise, so the error case carries no
state change. -/
def process_packet_body (s : ProcessorState) (geocode : String → GeoResult)
    (packet : Packet) (now1 now2 : Int) :
    Except (String × List String × List String) StepResult :=
  match packet.ip with
  | none => Except.ok { state := s, warnings := [], logs := [] }
  | some ip =>
    let packet_info := build_packet_info s packet ip now1 now2
    let enriched := enrich geocode packet_info
    let checked := check_alerts s.alerts enriched.1
    match checked.2 with
    | some e => Except.error (e, checked.1, enriched.2)
    | none =>
      Except.ok
        { state :=
            { s with
              packet_data := store_append s.packet_data enriched.1
              packet_count := s.packet_count + 1 }
          warnings := checked.1
          logs := enriched.2 }

/-- `process_packet`: the body wrapped in the outer
`try ... except Exception` (lines 57 and 103-104), which logs the exception
and returns normally. -/
def process_packet (s : ProcessorState) (geocode : String → GeoResult)
    (packet : Packet) (now1 now2 : Int) : StepResult :=
  match process_packet_body s geocode packet now1 now2 with
  | Except.ok r => r
  | Except.error (e, warns, logs) =>
    { state := s, warnings := warns
      logs := logs ++ ["Error processing packet: " ++ e] }

/-- One packet's worth of input to the capture loop: the raw packet, the
geocoder's behaviour for this call, and the two `datetime.now()` values. -/
structure CaptureInput where
  packet : Packet
  geocode : String → GeoResult
  now1 : Int
  now2 : Int

/-- Feeding a sequence of captured packets through `process_packet`, as the
sniff loop does. -/
def process_all (s : ProcessorState) (inputs : List CaptureInput) : ProcessorState :=
  inputs.foldl (fun st i => (process_packet st i.geocode i.packet i.now1 i.now2).state) s

/-- `get_dataframe`: a point-in-time copy of `self.packet_data`. -/
def get_dataframe (s : ProcessorState) : List PacketInfo :=
  s.packet_data

/-! ### Decimal representations

`f'OTHER({n})'` interpolates Python's decimal rendering of `n`, which the
embedding translates as `toString n`.  The lemmas below establish that this
rendering is injective, via the value of a decimal digit string. -/

/-- Numeric value of a decimal digit character. -/
def digit_val (c : Char) : Nat := c.toNat - 48

/-- Value of a most-significant-first decimal digit string. -/
def digits_val (l : List Char) : Nat :=
  l.foldl (fun a c => a * 10 + digit_val c) 0

lemma foldl_digit_shift (l : List Char) : ∀ a : Nat,
    l.foldl (fun x c => x * 10 + digit_val c) a = a * 10 ^ l.length + digits_val l := by
  induction l with
  | nil => intro a; simp [digits_val]
  | cons c l ih =>
    intro a
    simp only [List.foldl_cons, List.length_cons, digits_val] at ih ⊢
    rw [ih (a * 10 + digit_val c), ih (0 * 10 + digit_val c)]
    ring

lemma digits_val_cons (c : Char) (l : List Char) :
    digits_val (c :: l) = digit_val c * 10 ^ l.length + digits_val l := by
  simp only [digits_val, List.foldl_cons]
  rw [foldl_digit_shift l (0 * 10 + digit_val c), foldl_digit_shift l 0]
  ring

lemma digit_val_digitChar : ∀ k, k < 10 → digit_val (Nat.digitChar k) = k := by decide

lemma digitChar_ne_dash : ∀ k, k < 10 → Nat.digitChar k ≠ '-' := by decide

lemma toDigitsCore_succ (fuel n : Nat) (ds : List Char) :
    Nat.toDigitsCore 10 (fuel + 1) n ds =
      if n / 10 = 0 then Nat.digitChar (n % 10) :: ds
      else Nat.toDigitsCore 10 fuel (n / 10) (Nat.digitChar (n % 10) :: ds) := by
  simp [Nat.toDigitsCore]

lemma toDigitsCore_val : ∀ fuel n : Nat, n < fuel → ∀ ds : List Char,
    digits_val (Nat.toDigitsCore 10 fuel n ds) = n * 10 ^ ds.length + digits_val ds := by
  intro fuel
  induction fuel with
  | zero => intro n h; omega
  | succ fuel ih =>
    intro n h ds
    rw [toDigitsCore_succ]
    by_cases h0 : n / 10 = 0
    · rw [if_pos h0, digits_val_cons,
        digit_val_digitChar (n % 10) (Nat.mod_lt n (by norm_num))]
      have hn : n % 10 = n := Nat.mod_eq_of_lt (by omega)
      rw [hn]
    · rw [if_neg h0]
      have hfuel : n / 10 < fuel := by
        have := Nat.div_lt_self (show 0 < n by omega) (show 1 < 10 by norm_num)
        omega
      rw [ih (n / 10) hfuel, digits_val_cons,
        digit_val_digitChar (n % 10) (Nat.mod_lt n (by omega)), List.length_cons]
      have hdm : 10 * (n / 10) + n % 10 = n := Nat.div_add_mod n 10
      conv_rhs => rw [← hdm]
      ring

lemma toDigitsCore_head : ∀ fuel n : Nat, n < fuel → ∀ ds : List Char,
    ∃ k t, k < 10 ∧ Nat.toDigitsCore 10 fuel n ds = Nat.digitChar k :: t := by
  intro fuel
  induction fuel with
  | zero => intro n h; omega
  | succ fuel ih =>
    intro n h ds
    rw [toDigitsCore_succ]
    by_cases h0 : n / 10 = 0
    · exact ⟨n % 10, ds, Nat.mod_lt n (by omega), by rw [if_pos h0]⟩
    · have hfuel : n / 10 < fuel := by
        have := Nat.div_lt_self (show 0 < n by omega) (show 1 < 10 by norm_num)
        omega
      obtain ⟨k, t, hk, he⟩ := ih (n / 10) hfuel (Nat.digitChar (n % 10) :: ds)
      exact ⟨k, t, hk, by rw [if_neg h0, he]⟩

lemma digits_val_toDigits (n : Nat) : digits_val (Nat.toDigits 10 n) = n := by
  have h := toDigitsCore_val (n + 1) n (Nat.lt_succ_self n) []
  simpa [Nat.toDigits, digits_val] using h

lemma nat_repr_injective {a b : Nat} (h : Nat.repr a = Nat.repr b) : a = b := by
  have hd : Nat.toDigits 10 a = Nat.toDigits 10 b := congrArg String.data h
  have := congrArg digits_val hd
  rwa [digits_val_toDigits, digits_val_toDigits] at this

lemma nat_repr_head (n : Nat) :
    ∃ k t, k < 10 ∧ (Nat.repr n).data = Nat.digitChar k :: t := by
  obtain ⟨k, t, hk, he⟩ := toDigitsCore_head (n + 1) n (Nat.lt_succ_self n) []
  exact ⟨k, t, hk, he⟩

lemma int_toString_injective {a b : Int} (h : toString a = toString b) : a = b := by
  cases a with
  | ofNat m =>
    cases b with
    | ofNat n =>
      have hr : Nat.repr m = Nat.repr n := h
      rw [nat_repr_injective hr]
    | negSucc n =>
      exfalso
      have hd : (Nat.repr m).data = ("-" ++ Nat.repr (n + 1)).data := congrArg String.data h
      rw [String.data_append] at hd
      obtain ⟨k, t, hk, he⟩ := nat_repr_head m
      rw [he, show ("-" : String).data = ['-'] from rfl] at hd
      exact digitChar_ne_dash k hk (List.head_eq_of_cons_eq hd)
  | negSucc m =>
    cases b with
    | ofNat n =>
      exfalso
      have hd : ("-" ++ Nat.repr (m + 1)).data = (Nat.repr n).data := congrArg String.data h
      rw [String.data_append] at hd
      obtain ⟨k, t, hk, he⟩ := nat_repr_head n
      rw [he, show ("-" : String).data = ['-'] from rfl] at hd
      exact digitChar_ne_dash k hk (List.head_eq_of_cons_eq hd.symm)
    | negSucc n =>
      have hd : ("-" ++ Nat.repr (m + 1)).data = ("-" ++ Nat.repr (n + 1)).data :=
        congrArg String.data h
      rw [String.data_append, String.data_append,
        show ("-" : String).data = ['-'] from rfl] at hd
      have hr : Nat.repr (m + 1) = Nat.repr (n + 1) :=
        String.ext (List.tail_eq_of_cons_eq hd)
      have hmn := nat_repr_injective hr
      have : m = n := by omega
      rw [this]

lemma other_label_injective {a b : Int}
    (h : "OTHER(" ++ toString a ++ ")" = "OTHER(" ++ toString b ++ ")") : a = b := by
  have hd := congrArg String.data h
  simp only [String.data_append] at hd
  exact int_toString_injective
    (String.ext (List.append_cancel_left (List.append_cancel_right hd)))

/-! ### Ring-buffer lemmas -/

lemma store_append_of_lt {α : Type} (packet_data : List α) (x : α)
    (h : packet_data.length < 10000) : store_append packet_data x = packet_data ++ [x] := by
  simp only [store_append]
  rw [if_neg]
  simp only [List.length_append, List.length_singleton, gt_iff_lt, not_lt]
  omega

lemma store_append_of_ge {α : Type} (packet_data : List α) (x : α)
    (h : 10000 ≤ packet_data.length) :
    store_append packet_data x = (packet_data ++ [x]).drop 1 := by
  simp only [store_append]
  rw [if_pos]
  simp only [List.length_append, List.length_singleton, gt_iff_lt]
  omega

lemma store_append_foldl {α : Type} (xs : List α) :
    xs.foldl store_append [] = xs.drop (xs.length - 10000) := by
  induction xs using List.reverseRecOn with
  | nil => simp
  | append_singleton l x ih =>
    rw [List.foldl_append, List.foldl_cons, List.foldl_nil, ih]
    by_cases h : l.length < 10000
    · rw [store_append_of_lt]
      · rw [show l.length - 10000 = 0 by omega, List.drop_zero,
          show (l ++ [x]).length - 10000 = 0 by simp; omega, List.drop_zero]
      · simp only [List.length_drop]
        omega
    · have hlen : (l.drop (l.length - 10000)).length = 10000 := by
        simp only [List.length_drop]
        omega
      rw [store_append_of_ge _ _ (by rw [hlen]),
        List.drop_append_of_le_length (by rw [hlen]; omega), List.drop_drop,
        show (l ++ [x]).length - 10000 = l.length + 1 - 10000 by simp,
        List.drop_append_of_le_length (by omega),
        show l.length - 10000 + 1 = l.length + 1 - 10000 by omega]

lemma store_append_length_le {α : Type} (packet_data : List α) (x : α)
    (h : packet_data.length ≤ 10000) : (store_append packet_data x).length ≤ 10000 := by
  by_cases hlt : packet_data.length < 10000
  · rw [store_append_of_lt _ _ hlt]
    simp only [List.length_append, List.length_singleton]
    omega
  · rw [store_append_of_ge _ _ (by omega)]
    simp only [List.length_drop, List.length_append, List.length_singleton]
    omega

/-! ### Case analysis of a `process_packet` call -/

lemma process_packet_of_no_ip (s : ProcessorState) (geocode : String → GeoResult)
    (packet : Packet) (now1 now2 : Int) (h : packet.ip = none) :
    process_packet s geocode packet now1 now2 = { state := s, warnings := [], logs := [] } := by
  simp [process_packet, process_packet_body, h]

lemma process_packet_of_ok (s : ProcessorState) (geocode : String → GeoResult)
    (packet : Packet) (now1 now2 : Int) (ip : IPLayer) (hip : packet.ip = some ip)
    (hok : (check_alerts s.alerts (enrich geocode (build_packet_info s packet ip now1 now2)).1).2 = none) :
    process_packet s geocode packet now1 now2 =
      { state :=
          { s with
            packet_data :=
              store_append s.packet_data (enrich geocode (build_packet_info s packet ip now1 now2)).1
            packet_count := s.packet_count + 1 }
        warnings := (check_alerts s.alerts (enrich geocode (build_packet_info s packet ip now1 now2)).1).1
        logs := (enrich geocode (build_packet_info s packet ip now1 now2)).2 } := by
  simp [process_packet, process_packet_body, hip, hok]

lemma process_packet_of_err (s : ProcessorState) (geocode : String → GeoResult)
    (packet : Packet) (now1 now2 : Int) (ip : IPLayer) (e : String)
    (hip : packet.ip = some ip)
    (herr : (check_alerts s.alerts (enrich geocode (build_packet_info s packet ip now1 now2)).1).2 = some e) :
    process_packet s geocode packet now1 now2 =
      { state := s
        warnings := (check_alerts s.alerts (enrich geocode (build_packet_info s packet ip now1 now2)).1).1
        logs := (enrich geocode (build_packet_info s packet ip now1 now2)).2 ++
          ["Error processing packet: " ++ e] } := by
  simp [process_packet, process_packet_body, hip, herr]

lemma process_packet_state_cases (s : ProcessorState) (geocode : String → GeoResult)
    (packet : Packet) (now1 now2 : Int) :
    (process_packet s geocode packet now1 now2).state = s ∨
    ∃ ip, packet.ip = some ip ∧
      (check_alerts s.alerts (enrich geocode (build_packet_info s packet ip now1 now2)).1).2 = none ∧
      (process_packet s geocode packet now1 now2).state =
        { s with
          packet_data :=
            store_append s.packet_data (enrich geocode (build_packet_info s packet ip now1 now2)).1
          packet_count := s.packet_count + 1 } := by
  cases hip : packet.ip with
  | none => exact Or.inl (by rw [process_packet_of_no_ip s geocode packet now1 now2 hip])
  | some ip =>
    cases herr : (check_alerts s.alerts (enrich geocode (build_packet_info s packet ip now1 now2)).1).2 with
    | none =>
      exact Or.inr ⟨ip, rfl, herr,
        by rw [process_packet_of_ok s geocode packet now1 now2 ip hip herr]⟩
    | some e =>
      exact Or.inl (by rw [process_packet_of_err s geocode packet now1 now2 ip e hip herr])

lemma process_packet_preserves (s : ProcessorState) (geocode : String → GeoResult)
    (packet : Packet) (now1 now2 : Int) :
    (process_packet s geocode packet now1 now2).state.alerts = s.alerts ∧
    (process_packet s geocode packet now1 now2).state.start_time = s.start_time := by
  rcases process_packet_state_cases s geocode packet now1 now2 with h | ⟨ip, _, _, h⟩ <;>
    rw [h] <;> exact ⟨rfl, rfl⟩

/-! ### Alert-engine lemmas -/

/-- Specification-side description of the warnings `check_alerts` should
emit: one `st.warning` per registered rule whose condition returns true, in
registration order. -/
def matched_messages (alerts : List AlertRule) (packet_info : PacketInfo) : List String :=
  (alerts.filter fun rule =>
    match rule.1 packet_info with
    | Except.ok true => true
    | _ => false).map
    fun rule => "Alert: " ++ rule.2

/-! ### Counting lemmas -/

/-- A capture input that the pipeline fully processes from state `s`: the
packet has an IP layer and no registered alert condition raises on the
record built for it. -/
def input_ok (s : ProcessorState) (i : CaptureInput) : Prop :=
  ∃ ip, i.packet.ip = some ip ∧
    (check_alerts s.alerts (enrich i.geocode (build_packet_info s i.packet ip i.now1 i.now2)).1).2 = none

lemma build_packet_info_congr (s s' : ProcessorState) (packet : Packet) (ip : IPLayer)
    (now1 now2 : Int) (h : s'.start_time = s.start_time) :
    build_packet_info s' packet ip now1 now2 = build_packet_info s packet ip now1 now2 := by
  simp [build_packet_info, h]

lemma input_ok_congr (s s' : ProcessorState) (i : CaptureInput)
    (ha : s'.alerts = s.alerts) (ht : s'.start_time = s.start_time)
    (h : input_ok s i) : input_ok s' i := by
  obtain ⟨ip, hip, hok⟩ := h
  exact ⟨ip, hip, by rw [ha, build_packet_info_congr s s' i.packet ip i.now1 i.now2 ht]; exact hok⟩

lemma process_packet_count_of_ok (s : ProcessorState) (i : CaptureInput)
    (h : input_ok s i) :
    (process_packet s i.geocode i.packet i.now1 i.now2).state.packet_count = s.packet_count + 1 := by
  obtain ⟨ip, hip, hok⟩ := h
  rw [process_packet_of_ok s i.geocode i.packet i.now1 i.now2 ip hip hok]

lemma process_all_count (inputs : List CaptureInput) : ∀ s : ProcessorState,
    (∀ i ∈ inputs, input_ok s i) →
    (process_all s inputs).packet_count = s.packet_count + inputs.length := by
  induction inputs with
  | nil => intro s _; simp [process_all]
  | cons i rest ih =>
    intro s h
    have hi := h i (List.mem_cons_self i rest)
    have hpres := process_packet_preserves s i.geocode i.packet i.now1 i.now2
    have hrest : ∀ j ∈ rest, input_ok (process_packet s i.geocode i.packet i.now1 i.now2).state j :=
      fun j hj => input_ok_congr s _ j hpres.1 hpres.2 (h j (List.mem_cons_of_mem i hj))
    have hstep := process_packet_count_of_ok s i hi
    simp only [process_all, List.foldl_cons] at ih ⊢
    rw [ih _ hrest, hstep, List.length_cons]
    omega

lemma process_all_length_le (inputs : List CaptureInput) : ∀ s : ProcessorState,
    s.packet_data.length ≤ 10000 →
    (process_all s inputs).packet_data.length ≤ 10000 := by
  induction inputs with
  | nil => intro s h; simpa [process_all] using h
  | cons i rest ih =>
    intro s h
    simp only [process_all, List.foldl_cons] at ih ⊢
    refine ih _ ?_
    rcases process_packet_state_cases s i.geocode i.packet i.now1 i.now2 with hc | ⟨ip, _, _, hc⟩
    · rw [hc]; exact h
    · rw [hc]; exact store_append_length_le s.packet_data _ h

/-! ### Concrete sample data -/

/-- IP layer of a sample TCP packet. -/
def sample_ip : IPLayer := { src := "10.0.0.1", dst := "10.0.0.2", proto := 6 }

/-- A sample TCP packet: ports 1234 to 80, flags value 2, size 1500. -/
def tcp_packet : Packet :=
  { ip := some sample_ip
    tcp := some { sport := 1234, dport := 80, flags := 2 }
    udp := none
    len := 1500 }

/-- IP layer of a sample UDP packet. -/
def udp_ip : IPLayer := { src := "10.0.0.3", dst := "224.0.0.251", proto := 17 }

/-- A sample UDP packet: ports 5353 to 5353, size 200. -/
def udp_packet : Packet :=
  { ip := some udp_ip
    tcp := none
    udp := some { sport := 5353, dport := 5353 }
    len := 200 }

/-- A sample packet with no network-layer header. -/
def no_ip_packet : Packet := { ip := none, tcp := none, udp := none, len := 60 }

/-- A geocoder that finds nothing. -/
def no_geo : String → GeoResult := fun _ => GeoResult.notFound

/-- A geocoder call that raises. -/
def raising_geo : String → GeoResult := fun _ => GeoResult.raised "timeout"

/-- The alert rule registered by the dashboard: large TCP packets. -/
def big_tcp_rule : AlertRule :=
  (fun packet_info => Except.ok (decide (packet_info.protocol = "TCP" ∧ 1000 < packet_info.size)),
   "Large TCP packet detected")

/-- An alert rule whose condition raises on every record. -/
def raising_rule : AlertRule := (fun _ => Except.error "rule blew up", "raising rule")

/-- An alert rule whose condition holds of every record. -/
def always_rule : AlertRule := (fun _ => Except.ok true, "always fires")

/-- A fresh processor state with a raising rule registered before an
always-true rule. -/
def s_bad : ProcessorState :=
  { packet_data := [], packet_count := 0, start_time := 0, alerts := [raising_rule, always_rule] }

/-- The record built for `tcp_packet` by a fresh processor. -/
def sample_record : PacketInfo := build_packet_info (init_state 0) tcp_packet sample_ip 0 0

/-- One capture-loop input carrying `tcp_packet`. -/
def sample_input : CaptureInput := { packet := tcp_packet, geocode := no_geo, now1 := 0, now2 := 0 }

/-! ### Claims -/

/-- C1: feeding any sequence of records through the store's append keeps
the retained history at length at most 10000 and equal to the most recent
records in arrival order (oldest evicted first, strict FIFO); in
particular appending ids 1..10050 retains exactly ids 51..10050 in
ascending order. -/
theorem c1_store_bounded_fifo :
    (∀ (α : Type) (xs : List α),
      (xs.foldl store_append []).length ≤ 10000 ∧
      xs.foldl store_append [] = xs.drop (xs.length - 10000)) ∧
    (List.range' 1 10050).foldl store_append [] = List.range' 51 10000 := by
  constructor
  · intro α xs
    constructor
    · rw [store_append_foldl]
      simp only [List.length_drop]
      omega
    · exact store_append_foldl xs
  · rw [store_append_foldl]
    have hsplit : List.range' 1 50 ++ List.range' 51 10000 = List.range' 1 10050 := by
      have h := List.range'_append 1 50 10000 1
      simpa using h
    rw [show (List.range' 1 10050).length - 10000 = 50 by simp, ← hsplit,
      show (50 : Nat) = (List.range' 1 50).length by simp]
    exact List.drop_left _ _

/-- C2 counterexample: with the rule list `[raising_rule, always_rule]`,
processing a TCP packet leaves the record unappended and uncounted and the
always-true second rule emits no warning — against the claim that a raising
predicate is isolated, the remaining predicates still run, and the record
is not lost. -/
theorem c2_counterexample :
    ¬ ((process_packet s_bad no_geo tcp_packet 0 0).state.packet_count = s_bad.packet_count + 1 ∧
       "Alert: always fires" ∈ (process_packet s_bad no_geo tcp_packet 0 0).warnings) := by
  decide

/-- C2 (amended): if a registered predicate raises during alert evaluation,
the exception escapes `check_alerts` and is caught and logged only by the
outer handler of `process_packet`: predicates after the raising one are not
evaluated, and the record is lost — the retained history and the counter
are unchanged.  Warnings emitted by earlier rules stand. -/
theorem c2_alert_failure_aborts_packet :
    ∀ (s : ProcessorState) (geocode : String → GeoResult) (packet : Packet) (ip : IPLayer)
      (now1 now2 : Int) (e : String),
      packet.ip = some ip →
      (check_alerts s.alerts (enrich geocode (build_packet_info s packet ip now1 now2)).1).2 = some e →
      (process_packet s geocode packet now1 now2).state = s ∧
      (process_packet s geocode packet now1 now2).warnings =
        (check_alerts s.alerts (enrich geocode (build_packet_info s packet ip now1 now2)).1).1 ∧
      (process_packet s geocode packet now1 now2).logs =
        (enrich geocode (build_packet_info s packet ip now1 now2)).2 ++
          ["Error processing packet: " ++ e] := by
  intro s g p ip t1 t2 e hip herr
  rw [process_packet_of_err s g p t1 t2 ip e hip herr]
  exact ⟨rfl, rfl, rfl⟩

/-- Witness for the amended C2 theorem at a concrete input. -/
theorem c2_amended_witness :
    (process_packet s_bad no_geo tcp_packet 0 0).state = s_bad ∧
    (process_packet s_bad no_geo tcp_packet 0 0).warnings = [] ∧
    (process_packet s_bad no_geo tcp_packet 0 0).logs =
      ["Error processing packet: rule blew up"] := by
  have h := c2_alert_failure_aborts_packet s_bad no_geo tcp_packet sample_ip 0 0
    "rule blew up" rfl rfl
  exact ⟨h.1, h.2.1.trans rfl, h.2.2.trans rfl⟩

/-- C3: `packet_count` counts every successfully processed record: after N
fully processed appends it has grown by exactly N, independent of eviction,
while the retained history stays bounded by 10000 — the counter is not
capped at 10000 and is distinct from the retained size. -/
theorem c3_count_counts_everything :
    ∀ (s : ProcessorState) (inputs : List CaptureInput),
      (∀ i ∈ inputs, input_ok s i) →
      (process_all s inputs).packet_count = s.packet_count + inputs.length ∧
      (s.packet_data.length ≤ 10000 → (process_all s inputs).packet_data.length ≤ 10000) := by
  intro s inputs h
  exact ⟨process_all_count inputs s h, fun hl => process_all_length_le inputs s hl⟩

/-- Witness for C3 at a concrete one-packet run. -/
theorem c3_witness :
    (process_all (init_state 0) [sample_input]).packet_count = 0 + 1 ∧
    ((init_state 0).packet_data.length ≤ 10000 →
      (process_all (init_state 0) [sample_input]).packet_data.length ≤ 10000) := by
  have hyp : ∀ i ∈ [sample_input], input_ok (init_state 0) i := by
    intro i hi
    rw [List.mem_singleton] at hi
    subst hi
    exact ⟨sample_ip, rfl, rfl⟩
  exact c3_count_counts_everything (init_state 0) [sample_input] hyp

/-- C4: the record built for a packet with an IP layer carries the TCP
variant (ports and flags copied from the TCP header) when a TCP layer is
present, else the UDP variant (ports copied) when a UDP layer is present,
and otherwise no transport fields; the `Transport` variant type makes the
TCP and UDP cases mutually exclusive. -/
theorem c4_transport_iff :
    ∀ (s : ProcessorState) (packet : Packet) (ip : IPLayer) (now1 now2 : Int),
      (∀ t, packet.tcp = some t →
        (build_packet_info s packet ip now1 now2).transport =
          some (Transport.tcp t.sport t.dport t.flags)) ∧
      (packet.tcp = none → ∀ u, packet.udp = some u →
        (build_packet_info s packet ip now1 now2).transport =
          some (Transport.udp u.sport u.dport)) ∧
      (packet.tcp = none → packet.udp = none →
        (build_packet_info s packet ip now1 now2).transport = none) := by
  intro s p ip t1 t2
  refine ⟨?_, ?_, ?_⟩
  · intro t ht
    simp [build_packet_info, ht]
  · intro ht u hu
    simp [build_packet_info, ht, hu]
  · intro ht hu
    simp [build_packet_info, ht, hu]

/-- Witness for C4 on concrete TCP and UDP packets. -/
theorem c4_witness :
    (build_packet_info (init_state 0) tcp_packet sample_ip 0 0).transport =
      some (Transport.tcp 1234 80 2) ∧
    (build_packet_info (init_state 0) udp_packet udp_ip 0 0).transport =
      some (Transport.udp 5353 5353) :=
  ⟨(c4_transport_iff (init_state 0) tcp_packet sample_ip 0 0).1 _ rfl,
   (c4_transport_iff (init_state 0) udp_packet udp_ip 0 0).2.1 rfl _ rfl⟩

/-- C5: the protocol classifier is a total function returning the fixed
names for 1, 6 and 17, an "OTHER(<n>)" label embedding the decimal
rendering of n for every other integer, and distinct labels for distinct
integers outside {1, 6, 17}. -/
theorem c5_classifier :
    get_protocol_name 1 = "ICMP" ∧ get_protocol_name 6 = "TCP" ∧ get_protocol_name 17 = "UDP" ∧
    (∀ n : Int, n ≠ 1 → n ≠ 6 → n ≠ 17 →
      get_protocol_name n = "OTHER(" ++ toString n ++ ")") ∧
    (∀ n m : Int, n ≠ 1 → n ≠ 6 → n ≠ 17 → m ≠ 1 → m ≠ 6 → m ≠ 17 → n ≠ m →
      get_protocol_name n ≠ get_protocol_name m) := by
  have hother : ∀ n : Int, n ≠ 1 → n ≠ 6 → n ≠ 17 →
      get_protocol_name n = "OTHER(" ++ toString n ++ ")" := by
    intro n h1 h6 h17
    have e1 : (n == 1) = false := beq_eq_false_iff_ne.mpr h1
    have e6 : (n == 6) = false := beq_eq_false_iff_ne.mpr h6
    have e17 : (n == 17) = false := beq_eq_false_iff_ne.mpr h17
    simp [get_protocol_name, protocol_map, List.lookup, e1, e6, e17]
  refine ⟨rfl, rfl, rfl, hother, ?_⟩
  intro n m h1 h6 h17 g1 g6 g17 hnm hc
  rw [hother n h1 h6 h17, hother m g1 g6 g17] at hc
  exact hnm (other_label_injective hc)

/-- Witness for C5: fixed name plus distinct labels at 2 and 3. -/
theorem c5_witness : get_protocol_name 1 = "ICMP" ∧
    get_protocol_name 2 ≠ get_protocol_name 3 :=
  ⟨c5_classifier.1,
   c5_classifier.2.2.2.2 2 3 (by decide) (by decide) (by decide) (by decide) (by decide)
     (by decide) (by decide)⟩

/-- C6: a packet without an IP layer produces no record: the retained
history and the packet counter are unchanged and nothing is emitted. -/
theorem c6_no_ip_no_record :
    ∀ (s : ProcessorState) (geocode : String → GeoResult) (packet : Packet) (now1 now2 : Int),
      packet.ip = none →
      (process_packet s geocode packet now1 now2).state.packet_data = s.packet_data ∧
      (process_packet s geocode packet now1 now2).state.packet_count = s.packet_count ∧
      (process_packet s geocode packet now1 now2).warnings = [] ∧
      (process_packet s geocode packet now1 now2).logs = [] := by
  intro s g p t1 t2 h
  rw [process_packet_of_no_ip s g p t1 t2 h]
  exact ⟨rfl, rfl, rfl, rfl⟩

/-- Witness for C6 on a concrete packet without an IP layer. -/
theorem c6_witness :
    (process_packet (init_state 0) no_geo no_ip_packet 0 0).state.packet_data = [] ∧
    (process_packet (init_state 0) no_geo no_ip_packet 0 0).state.packet_count = 0 ∧
    (process_packet (init_state 0) no_geo no_ip_packet 0 0).warnings = [] ∧
    (process_packet (init_state 0) no_geo no_ip_packet 0 0).logs = [] :=
  c6_no_ip_no_record (init_state 0) no_geo no_ip_packet 0 0 rfl

/-- C7 counterexample: when the geolocation lookup returns no result the
code logs nothing — only a raised exception reaches `logger.error` — so the
claim that the failure is logged fails for the no-result case. -/
theorem c7_counterexample :
    no_geo sample_ip.src = GeoResult.notFound ∧
    (process_packet (init_state 0) no_geo tcp_packet 0 0).logs = [] ∧
    (process_packet (init_state 0) no_geo tcp_packet 0 0).state.packet_count = 1 := by
  exact ⟨rfl, rfl, rfl⟩

/-- C7 (amended): when the geolocation lookup raises or finds nothing, the
record is left unchanged (no latitude / longitude attached) and still flows
through alert evaluation and — when no predicate raises — is appended and
counted; a raised lookup is logged, while a no-result lookup is silently
skipped. -/
theorem c7_geo_failure_isolated :
    ∀ (s : ProcessorState) (geocode : String → GeoResult) (packet : Packet) (ip : IPLayer)
      (now1 now2 : Int),
      packet.ip = some ip →
      (geocode ip.src = GeoResult.notFound ∨ ∃ e, geocode ip.src = GeoResult.raised e) →
      (enrich geocode (build_packet_info s packet ip now1 now2)).1 =
        build_packet_info s packet ip now1 now2 ∧
      (enrich geocode (build_packet_info s packet ip now1 now2)).1.geo = none ∧
      (∀ e, geocode ip.src = GeoResult.raised e →
        (enrich geocode (build_packet_info s packet ip now1 now2)).2 =
          ["Error in geolocation: " ++ e]) ∧
      (geocode ip.src = GeoResult.notFound →
        (enrich geocode (build_packet_info s packet ip now1 now2)).2 = []) ∧
      ((check_alerts s.alerts (build_packet_info s packet ip now1 now2)).2 = none →
        (process_packet s geocode packet now1 now2).state.packet_data =
          store_append s.packet_data (build_packet_info s packet ip now1 now2) ∧
        (process_packet s geocode packet now1 now2).state.packet_count = s.packet_count + 1 ∧
        (process_packet s geocode packet now1 now2).warnings =
          (check_alerts s.alerts (build_packet_info s packet ip now1 now2)).1) := by
  intro s g p ip t1 t2 hip hgeo
  have hsrc : (build_packet_info s p ip t1 t2).source = ip.src := rfl
  have henr : (enrich g (build_packet_info s p ip t1 t2)).1 = build_packet_info s p ip t1 t2 := by
    rcases hgeo with hg | ⟨e, hg⟩ <;> simp [enrich, hsrc, hg]
  refine ⟨henr, by rw [henr]; rfl, ?_, ?_, ?_⟩
  · intro e hg
    simp [enrich, hsrc, hg]
  · intro hg
    simp [enrich, hsrc, hg]
  · intro hok
    have hok2 : (check_alerts s.alerts (enrich g (build_packet_info s p ip t1 t2)).1).2 = none := by
      rw [henr]
      exact hok
    rw [process_packet_of_ok s g p t1 t2 ip hip hok2]
    exact ⟨by rw [henr], rfl, by rw [henr]⟩

/-- Witness for C7 on a concrete record whose geolocation call raises. -/
theorem c7_witness :
    (enrich raising_geo (build_packet_info (init_state 0) tcp_packet sample_ip 0 0)).1 =
      build_packet_info (init_state 0) tcp_packet sample_ip 0 0 ∧
    (process_packet (init_state 0) raising_geo tcp_packet 0 0).state.packet_count = 0 + 1 := by
  have h := c7_geo_failure_isolated (init_state 0) raising_geo tcp_packet sample_ip 0 0 rfl
    (Or.inr ⟨"timeout", rfl⟩)
  exact ⟨h.1, (h.2.2.2.2 rfl).2.1⟩

/-- C8: when no registered predicate raises on a record, `check_alerts`
evaluates every rule in registration order and emits exactly one warning
per rule whose condition holds of the record, in that order; records are
immutable values, so evaluation does not modify them. -/
theorem c8_alerts_fire_per_match :
    ∀ (alerts : List AlertRule) (packet_info : PacketInfo),
      (∀ rule ∈ alerts, ∃ b, rule.1 packet_info = Except.ok b) →
      check_alerts alerts packet_info = (matched_messages alerts packet_info, none) := by
  intro alerts packet_info
  induction alerts with
  | nil => intro _; rfl
  | cons rule rest ih =>
    intro h
    obtain ⟨b, hb⟩ := h rule (List.mem_cons_self rule rest)
    have hrest := ih fun r hr => h r (List.mem_cons_of_mem rule hr)
    cases b <;>
      simp [check_alerts, matched_messages, hb, hrest, List.filter_cons]

/-- Witness for C8: the dashboard's large-TCP rule fires exactly once on a
qualifying record. -/
theorem c8_witness :
    check_alerts [big_tcp_rule] sample_record =
      (["Alert: Large TCP packet detected"], none) := by
  have h := c8_alerts_fire_per_match [big_tcp_rule] sample_record (by
    intro rule hr
    rw [List.mem_singleton] at hr
    subst hr
    exact ⟨_, rfl⟩)
  rw [h]
  rfl

/-- C9: `process_packet` never propagates an exception to its caller:
whether the pipeline body returns normally or raises, the call returns a
normal `StepResult`; a raise is turned into a log entry with the shared
state preserved. -/
theorem c9_never_raises :
    ∀ (s : ProcessorState) (geocode : String → GeoResult) (packet : Packet) (now1 now2 : Int),
      (∀ r, process_packet_body s geocode packet now1 now2 = Except.ok r →
        process_packet s geocode packet now1 now2 = r) ∧
      (∀ e warns logged,
        process_packet_body s geocode packet now1 now2 = Except.error (e, warns, logged) →
        process_packet s geocode packet now1 now2 =
          { state := s, warnings := warns
            logs := logged ++ ["Error processing packet: " ++ e] }) := by
  intro s g p t1 t2
  constructor
  · intro r h
    simp [process_packet, h]
  · intro e warns logged h
    simp [process_packet, h]

/-- Witness for C9: a raising alert predicate is caught and logged. -/
theorem c9_witness :
    process_packet s_bad no_geo tcp_packet 0 0 =
      { state := s_bad, warnings := []
        logs := ["Error processing packet: rule blew up"] } := by
  have h := (c9_never_raises s_bad no_geo tcp_packet 0 0).2 "rule blew up" [] [] rfl
  exact h

/-- C10: every `process_packet` call is atomic on the shared state: it
either leaves the state completely unchanged, or appends exactly one record
to the retained history and increments `packet_count` by exactly one, with
`start_time` and the rule list untouched. -/
theorem c10_per_packet_atomicity :
    ∀ (s : ProcessorState) (geocode : String → GeoResult) (packet : Packet) (now1 now2 : Int),
      (process_packet s geocode packet now1 now2).state = s ∨
      ∃ packet_info,
        (process_packet s geocode packet now1 now2).state.packet_data =
          store_append s.packet_data packet_info ∧
        (process_packet s geocode packet now1 now2).state.packet_count = s.packet_count + 1 ∧
        (process_packet s geocode packet now1 now2).state.start_time = s.start_time ∧
        (process_packet s geocode packet now1 now2).state.alerts = s.alerts := by
  intro s g p t1 t2
  rcases process_packet_state_cases s g p t1 t2 with h | ⟨ip, _, _, h⟩
  · exact Or.inl h
  · exact Or.inr ⟨_, by rw [h], by rw [h], by rw [h], by rw [h]⟩

end Dashboard
